import Mathlib

/-!
Verification of the Kick-Rich-Presence configuration store and logging
bootstrap, as a shallow embedding of `src/kick_presence/config.py` and
`src/kick_presence/logging_config.py`.

The JSON documents handled by the program are trees of string-keyed
mappings whose leaves are strings, integers, booleans or null; Python
dicts are modelled as insertion-ordered association lists (assignment
updates an existing key in place, otherwise appends at the end), which
matches Python dict semantics for the operations the code performs.
-/

set_option autoImplicit false

namespace KickPresence

/-- A JSON value as the configuration code manipulates it. -/
inductive JValue where
  | null : JValue
  | bool (b : Bool) : JValue
  | int (n : Int) : JValue
  | str (s : String) : JValue
  | obj (entries : List (String × JValue)) : JValue
  deriving Repr

mutual

/-- Boolean equality on JSON values. -/
def JValue.beq : JValue → JValue → Bool
  | .null, .null => true
  | .bool a, .bool b => a == b
  | .int a, .int b => a == b
  | .str a, .str b => a == b
  | .obj a, .obj b => beqEntries a b
  | _, _ => false

/-- Boolean equality on JSON object entry lists. -/
def beqEntries : List (String × JValue) → List (String × JValue) → Bool
  | [], [] => true
  | (k, v) :: r, (k2, v2) :: r2 => k == k2 && JValue.beq v v2 && beqEntries r r2
  | _, _ => false

end

mutual

theorem JValue.eq_of_beq : ∀ a b : JValue, JValue.beq a b = true → a = b
  | .null, .null, _ => rfl
  | .bool a, .bool b, h => congrArg JValue.bool (by simpa [JValue.beq] using h)
  | .int a, .int b, h => congrArg JValue.int (by simpa [JValue.beq] using h)
  | .str a, .str b, h => congrArg JValue.str (by simpa [JValue.beq] using h)
  | .obj a, .obj b, h => congrArg JValue.obj (eq_of_beqEntries a b h)
  | .null, .bool _, h => nomatch h
  | .null, .int _, h => nomatch h
  | .null, .str _, h => nomatch h
  | .null, .obj _, h => nomatch h
  | .bool _, .null, h => nomatch h
  | .bool _, .int _, h => nomatch h
  | .bool _, .str _, h => nomatch h
  | .bool _, .obj _, h => nomatch h
  | .int _, .null, h => nomatch h
  | .int _, .bool _, h => nomatch h
  | .int _, .str _, h => nomatch h
  | .int _, .obj _, h => nomatch h
  | .str _, .null, h => nomatch h
  | .str _, .bool _, h => nomatch h
  | .str _, .int _, h => nomatch h
  | .str _, .obj _, h => nomatch h
  | .obj _, .null, h => nomatch h
  | .obj _, .bool _, h => nomatch h
  | .obj _, .int _, h => nomatch h
  | .obj _, .str _, h => nomatch h

theorem eq_of_beqEntries : ∀ a b : List (String × JValue), beqEntries a b = true → a = b
  | [], [], _ => rfl
  | (k, v) :: r, (k2, v2) :: r2, h => by
      have h1 : (k == k2 && JValue.beq v v2) = true ∧ beqEntries r r2 = true :=
        Bool.and_eq_true_iff.mp h
      have h2 : (k == k2) = true ∧ JValue.beq v v2 = true :=
        Bool.and_eq_true_iff.mp h1.1
      rw [show k = k2 from by simpa using h2.1, JValue.eq_of_beq v v2 h2.2,
        eq_of_beqEntries r r2 h1.2]
  | [], (_, _) :: _, h => nomatch h
  | (_, _) :: _, [], h => nomatch h

end

mutual

theorem JValue.beq_refl : ∀ a : JValue, JValue.beq a a = true
  | .null => rfl
  | .bool b => by simp [JValue.beq]
  | .int n => by simp [JValue.beq]
  | .str s => by simp [JValue.beq]
  | .obj l => beqEntries_refl l

theorem beqEntries_refl : ∀ l : List (String × JValue), beqEntries l l = true
  | [] => rfl
  | (k, v) :: r => by simp [beqEntries, JValue.beq_refl v, beqEntries_refl r]

end

instance : DecidableEq JValue := fun a b =>
  if h : JValue.beq a b = true then .isTrue (JValue.eq_of_beq a b h)
  else .isFalse (fun he => h (by rw [he]; exact JValue.beq_refl b))

/-- `d[key]` lookup on a Python dict (first binding wins; bindings are unique). -/
def lookup : List (String × JValue) → String → Option JValue
  | [], _ => none
  | (k, v) :: rest, key => if k = key then some v else lookup rest key

/-- `d[key] = val` on a Python dict: update in place if the key exists,
otherwise append the new binding at the end. -/
def insert : List (String × JValue) → String → JValue → List (String × JValue)
  | [], key, val => [(key, val)]
  | (k, v) :: rest, key, val =>
      if k = key then (k, val) :: rest else (k, v) :: insert rest key val

/-- Python's `s.split(sep)` for a one-character separator, on the character
list of the string: always returns at least one (possibly empty) piece. -/
def splitOnChar (c : Char) : List Char → List (List Char)
  | [] => [[]]
  | x :: xs =>
      if x = c then [] :: splitOnChar c xs
      else
        match splitOnChar c xs with
        | [] => [[x]]
        | piece :: rest => (x :: piece) :: rest

/-- `key.split(".")` as performed by `Config.get` and `Config.set`. -/
def splitKey (key : String) : List String :=
  (splitOnChar '.' key.data).map List.asString

example : splitKey "kick.username" = ["kick", "username"] := by decide
example : splitKey "a..b" = ["a", "", "b"] := by decide
example : splitKey "" = [""] := by decide

/-- The body of `Config.get`'s loop: descend the document one segment at a
time; whenever the current node is not a dict containing the segment,
return `default` immediately. -/
def getPath : JValue → List String → JValue → JValue
  | v, [], _ => v
  | JValue.obj l, k :: rest, default =>
      match lookup l k with
      | some v => getPath v rest default
      | none => default
  | _, _ :: _, default => default

/-- Pure path lookup (specification-style companion of `getPath`): `some v`
when the full dotted path exists, `none` otherwise. -/
def lookupPath : JValue → List String → Option JValue
  | v, [] => some v
  | JValue.obj l, k :: rest =>
      match lookup l k with
      | some v => lookupPath v rest
      | none => none
  | _, _ :: _ => none

/-- One iteration of the `Config.set` loop over `keys[:-1]`: a missing
intermediate segment is created as an empty dict and descended into; a
present dict value is descended into; a present non-dict value makes
Python raise a TypeError, modelled as `none`. -/
def subDict (l : List (String × JValue)) (k : String) : Option (List (String × JValue)) :=
  match lookup l k with
  | none => some []
  | some (JValue.obj m) => some m
  | some _ => none

/-- The body of `Config.set`: walk `keys[:-1]` via `subDict`, then assign at
the last segment.  Returns `none` exactly when Python raises: an
intermediate segment whose current value is not a dict (TypeError), or an
empty key list (IndexError on the final assignment, unreachable since
`split` never returns an empty list). -/
def setPath : List (String × JValue) → List String → JValue → Option (List (String × JValue))
  | _, [], _ => none
  | l, [k], v => some (insert l k v)
  | l, k :: k2 :: rest, v =>
      match subDict l k with
      | none => none
      | some m =>
          match setPath m (k2 :: rest) v with
          | none => none
          | some m2 => some (insert l k (JValue.obj m2))

/-- The `default_config` dict built at the top of `Config._load_config`. -/
def default_config : List (String × JValue) :=
  [("kick", .obj [("username", .str ""), ("check_interval", .int 30),
     ("enable_notifications", .bool true)]),
   ("discord", .obj [("client_id", .str ""), ("enable_rich_presence", .bool true)]),
   ("gui", .obj [("theme", .str "dark"), ("start_minimized", .bool false),
     ("minimize_to_tray", .bool true)]),
   ("logging", .obj [("level", .str "INFO"), ("file", .null)])]

/-- One iteration of the inner merge loop of `Config._load_config`: insert
the default field `(f, d)` into the loaded section only if `f` is absent. -/
def fieldStep (loaded : List (String × JValue)) (f : String) (d : JValue) :
    List (String × JValue) :=
  match lookup loaded f with
  | some _ => loaded
  | none => insert loaded f d

/-- The inner merge loop of `Config._load_config` over one section's default
fields. -/
def mergeFields : List (String × JValue) → List (String × JValue) → List (String × JValue)
  | [], loaded => loaded
  | (f, d) :: rest, loaded => mergeFields rest (fieldStep loaded f d)

/-- One iteration of the outer merge loop of `Config._load_config`: a missing
top-level key is inserted with its whole default value; when both the
default value and the loaded value are dicts, missing sub-keys are
backfilled; otherwise the loaded value is kept as is. -/
def mergeStep (loaded : List (String × JValue)) (k : String) (v : JValue) :
    List (String × JValue) :=
  match lookup loaded k with
  | none => insert loaded k v
  | some cur =>
      match v, cur with
      | JValue.obj dsub, JValue.obj lsub =>
          insert loaded k (JValue.obj (mergeFields dsub lsub))
      | _, _ => loaded

/-- The outer merge loop of `Config._load_config` over the default sections. -/
def mergeDefaults : List (String × JValue) → List (String × JValue) → List (String × JValue)
  | [], loaded => loaded
  | (k, v) :: rest, loaded => mergeDefaults rest (mergeStep loaded k v)

/-- The state of the configuration file on disk, as `_load_config` can
observe it: absent, present but unreadable (`open`/read raises `OSError`),
present but not valid JSON (`json.load` raises `JSONDecodeError`), or
present with a parsed JSON value. -/
inductive DiskFile where
  | absent : DiskFile
  | unreadable : DiskFile
  | malformed : DiskFile
  | json (v : JValue) : DiskFile
  deriving DecidableEq, Repr

namespace Config

/-- `Config.save_config`: the document actually written.  Python's
`config_data or self.config_data` falls back to the in-memory document both
when the argument is `None` and when it is falsy (an empty dict). -/
def save_config (current : List (String × JValue)) :
    Option (List (String × JValue)) → List (String × JValue)
  | some d => if d.isEmpty then current else d
  | none => current

/-- Result of `Config._load_config`: the adopted in-memory document, the
resulting on-disk state, and whether a diagnostic line was printed to the
console. -/
structure LoadResult where
  doc : List (String × JValue)
  disk : DiskFile
  diag : Bool
  deriving DecidableEq, Repr

/-- `Config._load_config` run against an on-disk state (writes modelled as
succeeding).  `none` models an uncaught exception: a file whose JSON parses
to a non-object makes the merge loop raise a `TypeError`, which the
`except (OSError, json.JSONDecodeError)` clause does not catch. -/
def load_config : DiskFile → Option LoadResult
  | DiskFile.absent =>
      some ⟨default_config, DiskFile.json (JValue.obj default_config), false⟩
  | DiskFile.unreadable => some ⟨default_config, DiskFile.unreadable, true⟩
  | DiskFile.malformed => some ⟨default_config, DiskFile.malformed, true⟩
  | DiskFile.json (JValue.obj loaded) =>
      some ⟨mergeDefaults default_config loaded, DiskFile.json (JValue.obj loaded), false⟩
  | DiskFile.json _ => none

/-- `Config.get` with an explicit default (the source defaults it to `None`). -/
def get (doc : List (String × JValue)) (key : String) (default : JValue) : JValue :=
  getPath (JValue.obj doc) (splitKey key) default

/-- `Config.set`: `none` models the uncaught `TypeError` raised when an
intermediate path segment holds a non-dict value. -/
def set (doc : List (String × JValue)) (key : String) (v : JValue) :
    Option (List (String × JValue)) :=
  setPath doc (splitKey key) v

end Config

example : Config.load_config DiskFile.absent =
    some ⟨default_config, DiskFile.json (JValue.obj default_config), false⟩ := rfl
example : Config.get default_config "kick.check_interval" JValue.null = JValue.int 30 := by
  decide
example : Config.set default_config "kick.username.x" (JValue.int 1) = none := by decide
example : Config.set [] "a.b" (JValue.int 7) =
    some [("a", JValue.obj [("b", JValue.int 7)])] := by decide

/-- The full observable state a `Config` instance interacts with: its
resolved path, its in-memory document, and the file on disk. -/
structure ConfigState where
  config_path : String
  config_data : List (String × JValue)
  disk : DiskFile
  deriving DecidableEq, Repr

/-- `Config.get` as the method acts on the instance state: the body only
reads `self.config_data` — it performs no assignment and no file operation —
so the state component of the result is the input state itself. -/
def Config.getS (s : ConfigState) (key : String) (default : JValue) :
    JValue × ConfigState :=
  (Config.get s.config_data key default, s)

/-- The fixed file name used by `Config._get_default_config_path`:
`Path.home() / ".kick_presence" / "config.json"`. -/
def defaultConfigPath (home : String) : String :=
  home ++ "/.kick_presence/config.json"

/-- `Config.__init__`'s path resolution: `config_path or
self._get_default_config_path()`.  An argument that is Python-falsy (absent,
or the empty string) falls through to the default path; the second component
records whether `_get_default_config_path` ran and hence created the
`.kick_presence` directory under the home directory. -/
def resolveConfigPath (home : String) : Option String → String × Bool
  | none => (defaultConfigPath home, true)
  | some p => if p = "" then (defaultConfigPath home, true) else (p, false)

/-- An output sink installed on the root logger by `setup_logging`. -/
inductive Sink where
  | console : Sink
  | file (path : String) : Sink
  deriving DecidableEq, Repr

/-- The sink (handler) configuration produced by `setup_logging`, as a
function of the previously installed sinks: the loop over
`root_logger.handlers[:]` removes every existing handler, a
`StreamHandler(sys.stdout)` is always added, and a `FileHandler` is added
when `log_file` is given and opening it succeeds (`fileOk`); on failure a
warning is printed and only the console sink remains. -/
def setup_logging (logFile : Option String) (fileOk : Bool) (prev : List Sink) :
    List Sink :=
  let cleared : List Sink := prev.drop prev.length
  let withConsole : List Sink := cleared ++ [Sink.console]
  match logFile with
  | none => withConsole
  | some f => if fileOk then withConsole ++ [Sink.file f] else withConsole

/-! ### Association-list lemmas -/

theorem lookup_insert_self (l : List (String × JValue)) (k : String) (v : JValue) :
    lookup (insert l k v) k = some v := by
  induction l with
  | nil => simp [insert, lookup]
  | cons p rest ih =>
      obtain ⟨k', v'⟩ := p
      by_cases h : k' = k
      · simp [insert, lookup, h]
      · simp [insert, lookup, h, ih]

theorem lookup_insert_ne (l : List (String × JValue)) (k k' : String) (v : JValue)
    (h : k' ≠ k) : lookup (insert l k v) k' = lookup l k' := by
  have h' : ¬(k = k') := fun hh => h hh.symm
  induction l with
  | nil => simp [insert, lookup, h']
  | cons p rest ih =>
      obtain ⟨k0, v0⟩ := p
      by_cases h0 : k0 = k
      · subst h0
        simp [insert, lookup, h']
      · simp [insert, lookup, h0, ih]

theorem lookup_insert_isSome (l : List (String × JValue)) (k k' : String) (v : JValue)
    (h : (lookup l k').isSome = true) : (lookup (insert l k v) k').isSome = true := by
  by_cases hk : k' = k
  · subst hk; simp [lookup_insert_self]
  · rwa [lookup_insert_ne l k k' v hk]

theorem insert_eq_self_of_lookup (l : List (String × JValue)) (k : String) (v : JValue)
    (h : lookup l k = some v) : insert l k v = l := by
  induction l with
  | nil => simp [lookup] at h
  | cons p rest ih =>
      obtain ⟨k0, v0⟩ := p
      by_cases h0 : k0 = k
      · subst h0
        simp [lookup] at h
        simp [insert, h]
      · simp [lookup, h0] at h
        simp [insert, h0, ih h]

theorem mem_of_lookup_eq_some (l : List (String × JValue)) (k : String) (v : JValue)
    (h : lookup l k = some v) : (k, v) ∈ l := by
  induction l with
  | nil => simp [lookup] at h
  | cons p rest ih =>
      obtain ⟨k0, v0⟩ := p
      by_cases h0 : k0 = k
      · subst h0
        simp [lookup] at h
        simp [h]
      · simp [lookup, h0] at h
        exact List.mem_cons_of_mem _ (ih h)

theorem lookup_isSome_of_mem (l : List (String × JValue)) (k : String) (v : JValue)
    (h : (k, v) ∈ l) : (lookup l k).isSome = true := by
  induction l with
  | nil => simp at h
  | cons p rest ih =>
      obtain ⟨k0, v0⟩ := p
      rcases List.mem_cons.mp h with h | h
      · cases h
        simp [lookup]
      · by_cases h0 : k0 = k
        · simp [lookup, h0]
        · simp [lookup, h0, ih h]

theorem lookup_eq_none_of_not_mem (l : List (String × JValue)) (k : String)
    (h : k ∉ l.map Prod.fst) : lookup l k = none := by
  induction l with
  | nil => rfl
  | cons p rest ih =>
      obtain ⟨k0, v0⟩ := p
      simp only [List.map_cons, List.mem_cons] at h
      push_neg at h
      have h1 : ¬(k0 = k) := fun he => h.1 he.symm
      simp [lookup, h1, ih h.2]

theorem lookup_eq_some_of_mem_nodup (l : List (String × JValue)) (k : String) (v : JValue)
    (hnd : (l.map Prod.fst).Nodup) (h : (k, v) ∈ l) : lookup l k = some v := by
  induction l with
  | nil => simp at h
  | cons p rest ih =>
      obtain ⟨k0, v0⟩ := p
      simp only [List.map_cons, List.nodup_cons] at hnd
      rcases List.mem_cons.mp h with h | h
      · cases h
        simp [lookup]
      · have hk : ¬(k0 = k) := by
          intro he
          subst he
          exact hnd.1 (List.mem_map_of_mem Prod.fst h)
        simp [lookup, hk, ih hnd.2 h]

theorem lookup_cons_isSome (p : String × JValue) (rest : List (String × JValue))
    (k : String) (h : (lookup rest k).isSome = true) :
    (lookup (p :: rest) k).isSome = true := by
  obtain ⟨k0, v0⟩ := p
  by_cases h0 : k0 = k
  · simp [lookup, h0]
  · simp [lookup, h0, h]

/-! ### Key splitting -/

theorem splitOnChar_ne_nil (c : Char) (s : List Char) : splitOnChar c s ≠ [] := by
  induction s with
  | nil => simp [splitOnChar]
  | cons x xs ih =>
      by_cases h : x = c
      · simp [splitOnChar, h]
      · simp only [splitOnChar, h, if_neg h]
        cases hs : splitOnChar c xs with
        | nil => simp
        | cons y ys => simp

theorem splitKey_ne_nil (key : String) : splitKey key ≠ [] := by
  unfold splitKey
  intro h
  exact splitOnChar_ne_nil '.' key.data (List.map_eq_nil_iff.mp h)

/-! ### Merge-loop lemmas -/

/-- The value at key `k` after the outer merge processes the default entry
`(k, v)`. -/
def mergeOne (v : JValue) : Option JValue → JValue
  | none => v
  | some cur =>
      match v, cur with
      | JValue.obj dsub, JValue.obj lsub => JValue.obj (mergeFields dsub lsub)
      | _, _ => cur

theorem lookup_fieldStep_ne (loaded : List (String × JValue)) (f f' : String) (d : JValue)
    (h : f' ≠ f) : lookup (fieldStep loaded f d) f' = lookup loaded f' := by
  unfold fieldStep
  cases lookup loaded f with
  | some _ => rfl
  | none => exact lookup_insert_ne loaded f f' d h

theorem lookup_fieldStep_self (loaded : List (String × JValue)) (f : String) (d : JValue) :
    lookup (fieldStep loaded f d) f = some ((lookup loaded f).getD d) := by
  unfold fieldStep
  cases h : lookup loaded f with
  | some w => simp [h]
  | none => simp [lookup_insert_self]

theorem lookup_mergeStep_ne (loaded : List (String × JValue)) (k s : String) (v : JValue)
    (h : s ≠ k) : lookup (mergeStep loaded k v) s = lookup loaded s := by
  unfold mergeStep
  cases lookup loaded k with
  | none => exact lookup_insert_ne loaded k s v h
  | some cur =>
      cases v with
      | obj dsub =>
          cases cur with
          | obj lsub => exact lookup_insert_ne loaded k s _ h
          | null => rfl
          | bool b => rfl
          | int n => rfl
          | str s2 => rfl
      | null => rfl
      | bool b => rfl
      | int n => rfl
      | str s2 => rfl

theorem lookup_mergeStep_self (loaded : List (String × JValue)) (k : String) (v : JValue) :
    lookup (mergeStep loaded k v) k = some (mergeOne v (lookup loaded k)) := by
  unfold mergeStep
  cases h : lookup loaded k with
  | none => simp [mergeOne, lookup_insert_self]
  | some cur =>
      cases v with
      | obj dsub =>
          cases cur with
          | obj lsub => simp [mergeOne, lookup_insert_self]
          | null => simp [mergeOne, h]
          | bool b => simp [mergeOne, h]
          | int n => simp [mergeOne, h]
          | str s2 => simp [mergeOne, h]
      | null => simp [mergeOne, h]
      | bool b => simp [mergeOne, h]
      | int n => simp [mergeOne, h]
      | str s2 => simp [mergeOne, h]

theorem mergeFields_lookup_of_none (dfields : List (String × JValue)) :
    ∀ (sub : List (String × JValue)) (f : String), lookup dfields f = none →
      lookup (mergeFields dfields sub) f = lookup sub f := by
  induction dfields with
  | nil => intro sub f _; rfl
  | cons p rest ih =>
      obtain ⟨f0, d0⟩ := p
      intro sub f h
      by_cases h0 : f0 = f
      · simp [lookup, h0] at h
      · simp only [lookup, h0, if_neg h0] at h
        rw [mergeFields, ih _ f h, lookup_fieldStep_ne sub f0 f d0 (fun he => h0 he.symm)]

theorem mergeFields_lookup_of_sub (dfields : List (String × JValue)) :
    ∀ (sub : List (String × JValue)) (f : String) (w : JValue), lookup sub f = some w →
      lookup (mergeFields dfields sub) f = some w := by
  induction dfields with
  | nil => intro sub f w h; exact h
  | cons p rest ih =>
      obtain ⟨f0, d0⟩ := p
      intro sub f w h
      rw [mergeFields]
      refine ih _ f w ?_
      by_cases h0 : f = f0
      · subst h0
        rw [lookup_fieldStep_self, h]
        rfl
      · rw [lookup_fieldStep_ne sub f0 f d0 h0, h]

theorem mergeFields_lookup_of_dfield (dfields : List (String × JValue)) :
    ∀ (sub : List (String × JValue)) (f : String) (fd : JValue),
      lookup dfields f = some fd →
      lookup (mergeFields dfields sub) f = some ((lookup sub f).getD fd) := by
  induction dfields with
  | nil => intro sub f fd h; simp [lookup] at h
  | cons p rest ih =>
      obtain ⟨f0, d0⟩ := p
      intro sub f fd h
      rw [mergeFields]
      by_cases h0 : f0 = f
      · subst h0
        simp only [lookup, if_pos rfl] at h
        cases h
        cases hs : lookup sub f0 with
        | some w =>
            rw [mergeFields_lookup_of_sub rest _ f0 w
              (by rw [lookup_fieldStep_self, hs]; rfl)]
            rfl
        | none =>
            rw [mergeFields_lookup_of_sub rest _ f0 d0
              (by rw [lookup_fieldStep_self, hs]; rfl)]
            rfl
      · simp only [lookup, h0, if_neg h0] at h
        rw [ih _ f fd h, lookup_fieldStep_ne sub f0 f d0 (fun he => h0 he.symm)]

theorem mergeFields_lookup_isSome (dfields : List (String × JValue)) :
    ∀ (sub : List (String × JValue)) (f : String),
      (lookup dfields f).isSome = true ∨ (lookup sub f).isSome = true →
      (lookup (mergeFields dfields sub) f).isSome = true := by
  induction dfields with
  | nil =>
      intro sub f h
      rcases h with h | h
      · simp [lookup] at h
      · exact h
  | cons p rest ih =>
      obtain ⟨f0, d0⟩ := p
      intro sub f h
      rw [mergeFields]
      by_cases h0 : f = f0
      · subst h0
        refine ih _ f (Or.inr ?_)
        rw [lookup_fieldStep_self]
        rfl
      · have h1 : ¬(f0 = f) := fun he => h0 he.symm
        refine ih _ f ?_
        rcases h with h | h
        · refine Or.inl ?_
          simp only [lookup, h1, if_neg h1] at h
          exact h
        · refine Or.inr ?_
          rwa [lookup_fieldStep_ne sub f0 f d0 h0]

theorem mergeDefaults_lookup_of_none (defaults : List (String × JValue)) :
    ∀ (loaded : List (String × JValue)) (s : String), lookup defaults s = none →
      lookup (mergeDefaults defaults loaded) s = lookup loaded s := by
  induction defaults with
  | nil => intro loaded s _; rfl
  | cons p rest ih =>
      obtain ⟨k0, v0⟩ := p
      intro loaded s h
      by_cases h0 : k0 = s
      · simp [lookup, h0] at h
      · simp only [lookup, h0, if_neg h0] at h
        rw [mergeDefaults, ih _ s h, lookup_mergeStep_ne loaded k0 s v0 (fun he => h0 he.symm)]

theorem mergeDefaults_lookup_of_default (defaults : List (String × JValue)) :
    ∀ (loaded : List (String × JValue)) (s : String) (dv : JValue),
      (defaults.map Prod.fst).Nodup → lookup defaults s = some dv →
      lookup (mergeDefaults defaults loaded) s = some (mergeOne dv (lookup loaded s)) := by
  induction defaults with
  | nil => intro loaded s dv _ h; simp [lookup] at h
  | cons p rest ih =>
      obtain ⟨k0, v0⟩ := p
      intro loaded s dv hnd h
      simp only [List.map_cons, List.nodup_cons] at hnd
      rw [mergeDefaults]
      by_cases h0 : k0 = s
      · subst h0
        simp only [lookup, if_pos rfl] at h
        cases h
        rw [mergeDefaults_lookup_of_none rest _ k0 (lookup_eq_none_of_not_mem rest k0 hnd.1),
          lookup_mergeStep_self]
      · simp only [lookup, h0, if_neg h0] at h
        rw [ih _ s dv hnd.2 h, lookup_mergeStep_ne loaded k0 s v0 (fun he => h0 he.symm)]

/-! ### `get` refinement -/

theorem getPath_eq_lookupPath (ks : List String) :
    ∀ (v : JValue) (d : JValue), getPath v ks d = (lookupPath v ks).getD d := by
  induction ks with
  | nil =>
      intro v d
      cases v <;> rfl
  | cons k rest ih =>
      intro v d
      cases v with
      | obj l =>
          cases h : lookup l k with
          | none => simp [getPath, lookupPath, h]
          | some w => simp [getPath, lookupPath, h, ih]
      | null => rfl
      | bool b => rfl
      | int n => rfl
      | str s => rfl

/-! ### `set` lemmas -/

/-- A successful `setPath` either assigned at a single segment, or descended
through `subDict` and reassembled. -/
theorem setPath_shape :
    ∀ (ks : List String) (l l' : List (String × JValue)) (v : JValue),
      setPath l ks v = some l' →
      (∃ k, ks = [k] ∧ l' = insert l k v) ∨
      (∃ k k2 rest m m2, ks = k :: k2 :: rest ∧ subDict l k = some m ∧
        setPath m (k2 :: rest) v = some m2 ∧ l' = insert l k (JValue.obj m2)) := by
  intro ks l l' v h
  match ks with
  | [] => exact nomatch h
  | [k] =>
      refine Or.inl ⟨k, rfl, ?_⟩
      simp only [setPath] at h
      exact (Option.some.inj h).symm
  | k :: k2 :: rest =>
      refine Or.inr ⟨k, k2, rest, ?_⟩
      simp only [setPath] at h
      cases hsub : subDict l k with
      | none => simp only [hsub] at h; exact nomatch h
      | some m =>
          simp only [hsub] at h
          cases hset : setPath m (k2 :: rest) v with
          | none => simp only [hset] at h; exact nomatch h
          | some m2 =>
              simp only [hset] at h
              exact ⟨m, m2, rfl, rfl, hset, (Option.some.inj h).symm⟩

theorem getPath_setPath (d : JValue) :
    ∀ (ks : List String) (l l' : List (String × JValue)) (v : JValue),
      setPath l ks v = some l' → getPath (JValue.obj l') ks d = v
  | [], _, _, _, h => nomatch h
  | [k], l, l', v, h => by
      simp only [setPath] at h
      cases h
      simp [getPath, lookup_insert_self]
  | k :: k2 :: rest, l, l', v, h => by
      simp only [setPath] at h
      cases hsub : subDict l k with
      | none => simp only [hsub] at h; exact nomatch h
      | some m =>
          simp only [hsub] at h
          cases hset : setPath m (k2 :: rest) v with
          | none => simp only [hset] at h; exact nomatch h
          | some m2 =>
              simp only [hset] at h
              cases h
              have ihr := getPath_setPath d (k2 :: rest) m m2 v hset
              simpa [getPath, lookup_insert_self] using ihr

theorem setPath_lookup_isSome (ks : List String) (l l' : List (String × JValue))
    (v : JValue) (h : setPath l ks v = some l') (f : String)
    (hf : (lookup l f).isSome = true) : (lookup l' f).isSome = true := by
  rcases setPath_shape ks l l' v h with ⟨k, _, hins⟩ | ⟨k, _, _, _, m2, _, _, _, hins⟩ <;>
    subst hins <;> exact lookup_insert_isSome _ _ _ _ hf

/-- `set(key, v)` followed by `get(key)` returns `v`, whenever the `set`
call completes without raising. -/
theorem set_then_get (doc : List (String × JValue)) (key : String) (v : JValue)
    (doc' : List (String × JValue)) (h : Config.set doc key v = some doc') :
    ∀ d : JValue, Config.get doc' key d = v := by
  intro d
  exact getPath_setPath d (splitKey key) doc doc' v h

/-! ### The merge invariant and merge identity -/

/-- `v` is a JSON object. -/
def JValue.isObj : JValue → Bool
  | JValue.obj _ => true
  | _ => false

/-- Every field of `dsub` is present (by key) in `lsub`. -/
def coversFields (dsub lsub : List (String × JValue)) : Bool :=
  dsub.all (fun p => (lookup lsub p.1).isSome)

/-- The document has an entry for the default section `(k, v)`, and when both
that entry and the default are dicts, every default field key is present. -/
def sectionOk (doc : List (String × JValue)) (k : String) (v : JValue) : Bool :=
  match lookup doc k with
  | none => false
  | some cur =>
      match v, cur with
      | JValue.obj dsub, JValue.obj lsub => coversFields dsub lsub
      | _, _ => true

/-- The invariant `_load_config` establishes and benign `set` calls keep:
every default section key is present, and a section stored as a dict
contains every default field key of that section. -/
def hasDefaults (doc : List (String × JValue)) : Bool :=
  default_config.all (fun p => sectionOk doc p.1 p.2)

theorem coversFields_to_lookup (dsub lsub : List (String × JValue))
    (h : coversFields dsub lsub = true) (f : String)
    (hf : (lookup dsub f).isSome = true) : (lookup lsub f).isSome = true := by
  obtain ⟨fd, hfd⟩ := Option.isSome_iff_exists.mp hf
  exact List.all_eq_true.mp h (f, fd) (mem_of_lookup_eq_some dsub f fd hfd)

theorem coversFields_self (lsub : List (String × JValue)) :
    coversFields lsub lsub = true := by
  refine List.all_eq_true.mpr ?_
  intro p hp
  obtain ⟨f, fd⟩ := p
  exact lookup_isSome_of_mem lsub f fd hp

theorem coversFields_mergeFields (dsub lsub : List (String × JValue)) :
    coversFields dsub (mergeFields dsub lsub) = true := by
  refine List.all_eq_true.mpr ?_
  intro p hp
  obtain ⟨f, fd⟩ := p
  exact mergeFields_lookup_isSome dsub lsub f (Or.inl (lookup_isSome_of_mem dsub f fd hp))

theorem fieldStep_eq_self (loaded : List (String × JValue)) (f : String) (d : JValue)
    (h : (lookup loaded f).isSome = true) : fieldStep loaded f d = loaded := by
  unfold fieldStep
  cases hl : lookup loaded f with
  | some w => rfl
  | none => rw [hl] at h; exact nomatch h

theorem mergeFields_eq_self (dfields : List (String × JValue)) :
    ∀ lsub : List (String × JValue),
      (∀ f, (lookup dfields f).isSome = true → (lookup lsub f).isSome = true) →
      mergeFields dfields lsub = lsub := by
  induction dfields with
  | nil => intro lsub _; rfl
  | cons p rest ih =>
      obtain ⟨f0, d0⟩ := p
      intro lsub h
      have h0 : (lookup lsub f0).isSome = true := by
        refine h f0 ?_
        simp [lookup]
      rw [mergeFields, fieldStep_eq_self lsub f0 d0 h0]
      refine ih lsub ?_
      intro f hf
      exact h f (lookup_cons_isSome (f0, d0) rest f hf)

theorem mergeStep_eq_self (loaded : List (String × JValue)) (k : String) (v : JValue)
    (h : sectionOk loaded k v = true) : mergeStep loaded k v = loaded := by
  unfold sectionOk at h
  unfold mergeStep
  cases hl : lookup loaded k with
  | none => rw [hl] at h; exact nomatch h
  | some cur =>
      simp only [hl] at h ⊢
      cases v with
      | obj dsub =>
          cases cur with
          | obj lsub =>
              dsimp only at h ⊢
              rw [mergeFields_eq_self dsub lsub (coversFields_to_lookup dsub lsub h)]
              exact insert_eq_self_of_lookup loaded k (JValue.obj lsub) hl
          | null => rfl
          | bool b => rfl
          | int n => rfl
          | str s => rfl
      | null => rfl
      | bool b => rfl
      | int n => rfl
      | str s => rfl

theorem mergeDefaults_eq_self (defaults : List (String × JValue)) :
    ∀ loaded : List (String × JValue),
      (∀ k v, (k, v) ∈ defaults → sectionOk loaded k v = true) →
      mergeDefaults defaults loaded = loaded := by
  induction defaults with
  | nil => intro loaded _; rfl
  | cons p rest ih =>
      obtain ⟨k0, v0⟩ := p
      intro loaded h
      rw [mergeDefaults, mergeStep_eq_self loaded k0 v0 (h k0 v0 (List.mem_cons_self _ _))]
      refine ih loaded ?_
      intro k v hm
      exact h k v (List.mem_cons_of_mem _ hm)

theorem hasDefaults_merge_identity (doc : List (String × JValue))
    (h : hasDefaults doc = true) : mergeDefaults default_config doc = doc := by
  refine mergeDefaults_eq_self default_config doc ?_
  intro k v hm
  exact List.all_eq_true.mp h (k, v) hm

theorem sectionOk_merge_default (L : List (String × JValue)) (k : String) (v : JValue)
    (h : lookup default_config k = some v) :
    sectionOk (mergeDefaults default_config L) k v = true := by
  have hM := mergeDefaults_lookup_of_default default_config L k v (by decide) h
  unfold sectionOk
  rw [hM]
  cases v with
  | obj dsub =>
      cases hL : lookup L k with
      | none => simpa [mergeOne] using coversFields_self dsub
      | some cur =>
          cases cur with
          | obj lsub => simpa [mergeOne] using coversFields_mergeFields dsub lsub
          | null => rfl
          | bool b => rfl
          | int n => rfl
          | str s => rfl
  | null => rfl
  | bool b => rfl
  | int n => rfl
  | str s => rfl

theorem hasDefaults_mergeDefaults (L : List (String × JValue)) :
    hasDefaults (mergeDefaults default_config L) = true := by
  refine List.all_eq_true.mpr ?_
  intro p hp
  obtain ⟨k, v⟩ := p
  exact sectionOk_merge_default L k v
    (lookup_eq_some_of_mem_nodup default_config k v (by decide) hp)

theorem load_config_hasDefaults (disk : DiskFile) (r : Config.LoadResult)
    (h : Config.load_config disk = some r) : hasDefaults r.doc = true := by
  cases disk with
  | absent =>
      cases Option.some.inj h
      decide
  | unreadable =>
      cases Option.some.inj h
      decide
  | malformed =>
      cases Option.some.inj h
      decide
  | json v =>
      cases v with
      | obj L =>
          cases Option.some.inj h
          exact hasDefaults_mergeDefaults L
      | null => exact nomatch h
      | bool b => exact nomatch h
      | int n => exact nomatch h
      | str s => exact nomatch h

theorem sectionOk_congr (doc doc' : List (String × JValue)) (k : String) (v : JValue)
    (h : lookup doc' k = lookup doc k) : sectionOk doc' k v = sectionOk doc k v := by
  unfold sectionOk
  rw [h]

theorem hasDefaults_set (doc doc' : List (String × JValue)) (key : String) (v : JValue)
    (hd : hasDefaults doc = true) (hv : JValue.isObj v = false)
    (hs : Config.set doc key v = some doc') : hasDefaults doc' = true := by
  unfold Config.set at hs
  refine List.all_eq_true.mpr ?_
  intro p hp
  obtain ⟨k0, v0⟩ := p
  have hold : sectionOk doc k0 v0 = true := List.all_eq_true.mp hd (k0, v0) hp
  rcases setPath_shape (splitKey key) doc doc' v hs with
    ⟨k, hks, hins⟩ | ⟨k, k2, rest, m, m2, hks, hsub, hset, hins⟩
  · subst hins
    by_cases hk : k0 = k
    · subst hk
      unfold sectionOk
      rw [lookup_insert_self]
      cases v0 <;> cases v <;> first | rfl | exact nomatch hv
    · rw [sectionOk_congr doc _ k0 v0 (lookup_insert_ne doc k k0 v hk)]
      exact hold
  · subst hins
    by_cases hk : k0 = k
    · subst hk
      unfold sectionOk at hold
      cases hl : lookup doc k0 with
      | none => rw [hl] at hold; exact nomatch hold
      | some cur =>
          rw [hl] at hold
          unfold subDict at hsub
          rw [hl] at hsub
          cases cur with
          | obj lsub =>
              have hm : lsub = m := Option.some.inj hsub
              subst hm
              unfold sectionOk
              rw [lookup_insert_self]
              cases v0 with
              | obj dsub =>
                  dsimp only at hold ⊢
                  refine List.all_eq_true.mpr ?_
                  intro q hq
                  obtain ⟨f, fd⟩ := q
                  exact setPath_lookup_isSome (k2 :: rest) lsub m2 v hset f
                    (coversFields_to_lookup dsub lsub hold f
                      (lookup_isSome_of_mem dsub f fd hq))
              | null => rfl
              | bool b => rfl
              | int n => rfl
              | str s => rfl
          | null => exact nomatch hsub
          | bool b => exact nomatch hsub
          | int n => exact nomatch hsub
          | str s => exact nomatch hsub
    · rw [sectionOk_congr doc _ k0 v0 (lookup_insert_ne doc k k0 (JValue.obj m2) hk)]
      exact hold

/-- A sequence of `set` calls, each given as a dotted key and a value;
`none` as soon as one of them raises. -/
def applySets : List (String × JValue) → List (String × JValue) →
    Option (List (String × JValue))
  | doc, [] => some doc
  | doc, (k, v) :: rest =>
      match Config.set doc k v with
      | none => none
      | some doc' => applySets doc' rest

theorem hasDefaults_applySets :
    ∀ (sets : List (String × JValue)) (doc D : List (String × JValue)),
      hasDefaults doc = true → (∀ p ∈ sets, JValue.isObj p.2 = false) →
      applySets doc sets = some D → hasDefaults D = true := by
  intro sets
  induction sets with
  | nil =>
      intro doc D hd _ h
      cases Option.some.inj h
      exact hd
  | cons p rest ih =>
      obtain ⟨k, v⟩ := p
      intro doc D hd hv h
      simp only [applySets] at h
      cases hset : Config.set doc k v with
      | none => rw [hset] at h; exact nomatch h
      | some doc' =>
          rw [hset] at h
          refine ih doc' D ?_ ?_ h
          · exact hasDefaults_set doc doc' k v hd
              (hv (k, v) (List.mem_cons_self _ _)) hset
          · intro q hq
            exact hv q (List.mem_cons_of_mem _ hq)

theorem lookupPath_nil (v : JValue) : lookupPath v [] = some v := by
  cases v <;> rfl

theorem lookupPath_pair (l : List (String × JValue)) (s f : String)
    (sub : List (String × JValue)) (w : JValue) (h1 : lookup l s = some (JValue.obj sub))
    (h2 : lookup sub f = some w) : lookupPath (JValue.obj l) [s, f] = some w := by
  simp only [lookupPath, h1, h2, lookupPath_nil]

/-! ### Claims -/

/-- C1 (counterexample): a file that parses as a JSON object in which the
top-level key `kick` holds a non-dict value constructs successfully, yet the
resulting in-memory document does not contain the default field
`kick.username` that the schema table has: the merge keeps the non-dict
value `5` and inserts no fields beneath it, so the claim that the document
contains every default section and field is false for this file. -/
theorem C1_counterexample :
    Config.load_config (DiskFile.json (JValue.obj [("kick", JValue.int 5)])) =
      some ⟨mergeDefaults default_config [("kick", JValue.int 5)],
            DiskFile.json (JValue.obj [("kick", JValue.int 5)]), false⟩ ∧
    lookupPath (JValue.obj default_config) ["kick", "username"] = some (JValue.str "") ∧
    lookupPath (JValue.obj (mergeDefaults default_config [("kick", JValue.int 5)]))
      ["kick", "username"] = none ∧
    Config.get (mergeDefaults default_config [("kick", JValue.int 5)])
      "kick.username" (JValue.str "MISSING") = JValue.str "MISSING" := by
  decide

/-- C1 (amended): for every on-disk file that parses as a JSON object, the
constructed in-memory document contains every default top-level section; a
missing top-level section is inserted wholesale with its defaults; a field
missing from a section that is stored as a mapping is inserted with its
default; a top-level key present in the file whose value (or whose default)
is not a mapping keeps its on-disk value unchanged and no fields are
inserted beneath it; and every field present at depth 2 keeps its exact
on-disk value, so the merge never descends beyond depth 2. -/
theorem C1_merge_backfill (L : List (String × JValue)) :
    (∀ s dv, lookup default_config s = some dv → lookup L s = none →
      lookup (mergeDefaults default_config L) s = some dv) ∧
    (∀ s dsub lsub f fd, lookup default_config s = some (JValue.obj dsub) →
      lookup L s = some (JValue.obj lsub) → lookup dsub f = some fd →
      lookup lsub f = none →
      lookupPath (JValue.obj (mergeDefaults default_config L)) [s, f] = some fd) ∧
    (∀ s v, lookup L s = some v → lookup default_config s = none →
      lookup (mergeDefaults default_config L) s = some v) ∧
    (∀ s v dv, lookup L s = some v → lookup default_config s = some dv →
      (JValue.isObj v = false ∨ JValue.isObj dv = false) →
      lookup (mergeDefaults default_config L) s = some v) ∧
    (∀ s lsub f w, lookup L s = some (JValue.obj lsub) → lookup lsub f = some w →
      lookupPath (JValue.obj (mergeDefaults default_config L)) [s, f] = some w) := by
  refine ⟨?_, ?_, ?_, ?_, ?_⟩
  · intro s dv h1 h2
    rw [mergeDefaults_lookup_of_default default_config L s dv (by decide) h1, h2]
    rfl
  · intro s dsub lsub f fd h1 h2 h3 h4
    have hM := mergeDefaults_lookup_of_default default_config L s (JValue.obj dsub)
      (by decide) h1
    rw [h2] at hM
    have hF := mergeFields_lookup_of_dfield dsub lsub f fd h3
    rw [h4] at hF
    exact lookupPath_pair _ s f (mergeFields dsub lsub) fd hM hF
  · intro s v h1 h2
    rw [mergeDefaults_lookup_of_none default_config L s h2, h1]
  · intro s v dv h1 h2 h3
    rw [mergeDefaults_lookup_of_default default_config L s dv (by decide) h2, h1]
    cases v <;> cases dv <;>
      first
        | rfl
        | (rcases h3 with h3 | h3 <;> exact nomatch h3)
  · intro s lsub f w h1 h2
    cases hd : lookup default_config s with
    | none =>
        have hM := mergeDefaults_lookup_of_none default_config L s hd
        rw [h1] at hM
        exact lookupPath_pair _ s f lsub w hM h2
    | some dv =>
        have hM := mergeDefaults_lookup_of_default default_config L s dv (by decide) hd
        rw [h1] at hM
        cases dv with
        | obj dsub =>
            exact lookupPath_pair _ s f (mergeFields dsub lsub) w hM
              (mergeFields_lookup_of_sub dsub lsub f w h2)
        | null => exact lookupPath_pair _ s f lsub w hM h2
        | bool b => exact lookupPath_pair _ s f lsub w hM h2
        | int n => exact lookupPath_pair _ s f lsub w hM h2
        | str s2 => exact lookupPath_pair _ s f lsub w hM h2

/-- C1 (witness): the amended theorem applied to the concrete file whose only
sections are a partial `gui` and an unknown key `x`: the absent `kick`
section is inserted wholesale, the missing field `gui.start_minimized` gets
its default, and the present field `gui.theme` keeps its on-disk value. -/
theorem C1_merge_backfill_witness :
    lookup (mergeDefaults default_config
      [("gui", JValue.obj [("theme", JValue.str "light")]), ("x", JValue.int 9)]) "kick" =
      some (JValue.obj [("username", JValue.str ""), ("check_interval", JValue.int 30),
        ("enable_notifications", JValue.bool true)]) ∧
    lookupPath (JValue.obj (mergeDefaults default_config
      [("gui", JValue.obj [("theme", JValue.str "light")]), ("x", JValue.int 9)]))
      ["gui", "start_minimized"] = some (JValue.bool false) ∧
    lookupPath (JValue.obj (mergeDefaults default_config
      [("gui", JValue.obj [("theme", JValue.str "light")]), ("x", JValue.int 9)]))
      ["gui", "theme"] = some (JValue.str "light") ∧
    lookup (mergeDefaults default_config
      [("gui", JValue.obj [("theme", JValue.str "light")]), ("x", JValue.int 9)]) "x" =
      some (JValue.int 9) := by
  refine ⟨(C1_merge_backfill _).1 "kick"
      (JValue.obj [("username", JValue.str ""), ("check_interval", JValue.int 30),
        ("enable_notifications", JValue.bool true)]) (by decide) (by decide),
    (C1_merge_backfill _).2.1 "gui"
      [("theme", JValue.str "dark"), ("start_minimized", JValue.bool false),
        ("minimize_to_tray", JValue.bool true)]
      [("theme", JValue.str "light")] "start_minimized" (JValue.bool false)
      (by decide) (by decide) (by decide) (by decide),
    (C1_merge_backfill _).2.2.2.2 "gui" [("theme", JValue.str "light")] "theme"
      (JValue.str "light") (by decide) (by decide),
    (C1_merge_backfill _).2.2.1 "x" (JValue.int 9) (by decide) (by decide)⟩

/-- C2 (counterexample): on the default document the path
`kick.username.x` has the non-dict intermediate value `kick.username`
(a string), so `set` raises an uncaught TypeError instead of completing;
the claimed set-then-get round trip therefore fails for this key even
though its depth is at least 1 and the full path did not previously
exist. -/
theorem C2_counterexample :
    ¬ ∃ doc' : List (String × JValue),
        Config.set default_config "kick.username.x" (JValue.int 1) = some doc' ∧
        Config.get doc' "kick.username.x" JValue.null = JValue.int 1 := by
  rintro ⟨doc', h, _⟩
  rw [show Config.set default_config "kick.username.x" (JValue.int 1) = none from by decide]
    at h
  exact nomatch h

/-- C2 (amended): for every document, value and dot-separated key, if the
`set(key, v)` call completes without raising (every intermediate segment is
either absent or holds a dict), then `get(key)` on the updated document
returns exactly `v`. -/
theorem C2_set_then_get (doc : List (String × JValue)) (key : String) (v : JValue)
    (doc' : List (String × JValue)) (h : Config.set doc key v = some doc') :
    Config.get doc' key JValue.null = v :=
  set_then_get doc key v doc' h JValue.null

/-- C2 (witness): setting the previously non-existent depth-3 path `a.b.c`
to `7` on the empty document and reading it back. -/
theorem C2_set_then_get_witness :
    Config.set ([] : List (String × JValue)) "a.b.c" (JValue.int 7) =
      some [("a", JValue.obj [("b", JValue.obj [("c", JValue.int 7)])])] ∧
    Config.get [("a", JValue.obj [("b", JValue.obj [("c", JValue.int 7)])])] "a.b.c"
      JValue.null = JValue.int 7 :=
  ⟨by decide, C2_set_then_get [] "a.b.c" (JValue.int 7)
    [("a", JValue.obj [("b", JValue.obj [("c", JValue.int 7)])])] (by decide)⟩

/-- C3 (counterexample): construct store A at an absent path (document =
defaults), run one `set` call assigning the empty dict — a legal value —
to the key `kick`, then `save`, then construct store B at the same path.  A reads back the
empty dict for `kick`, but B's construction re-merges the default schema
into the saved file and backfills `kick`'s fields, so `B.get("kick")`
differs from `A.get("kick")`: the round-trip claim fails as stated. -/
theorem C3_counterexample :
    Config.load_config DiskFile.absent =
      some ⟨default_config, DiskFile.json (JValue.obj default_config), false⟩ ∧
    Config.set default_config "kick" (JValue.obj []) =
      some (insert default_config "kick" (JValue.obj [])) ∧
    Config.get (insert default_config "kick" (JValue.obj [])) "kick" JValue.null =
      JValue.obj [] ∧
    Config.load_config (DiskFile.json (JValue.obj (Config.save_config
      (insert default_config "kick" (JValue.obj [])) none))) =
      some ⟨mergeDefaults default_config (insert default_config "kick" (JValue.obj [])),
        DiskFile.json (JValue.obj (insert default_config "kick" (JValue.obj []))), false⟩ ∧
    Config.get (mergeDefaults default_config (insert default_config "kick"
      (JValue.obj []))) "kick" JValue.null ≠ JValue.obj [] := by
  decide

/-- C3 (amended): for every store A constructed at a path (whatever the
on-disk state was), every sequence of successful `set` calls whose values
are not mappings, and every store B constructed at the same path after
`save`, B adopts exactly A's document — the reload merge is the identity —
so `B.get(k)` equals `A.get(k)` for every key `k` (in particular every key
set on A).  Setting a mapping value may instead be backfilled on reload,
as the counterexample shows. -/
theorem C3_roundtrip (disk : DiskFile) (r : Config.LoadResult)
    (sets : List (String × JValue)) (D : List (String × JValue))
    (hload : Config.load_config disk = some r)
    (hvals : ∀ p ∈ sets, JValue.isObj p.2 = false)
    (happly : applySets r.doc sets = some D) :
    Config.load_config (DiskFile.json (JValue.obj (Config.save_config D none))) =
      some ⟨D, DiskFile.json (JValue.obj D), false⟩ ∧
    ∀ key d, Config.get (mergeDefaults default_config D) key d = Config.get D key d := by
  have hD : hasDefaults D = true :=
    hasDefaults_applySets sets r.doc D (load_config_hasDefaults disk r hload) hvals happly
  have hid := hasDefaults_merge_identity D hD
  constructor
  · show Config.load_config (DiskFile.json (JValue.obj D)) = _
    simp only [Config.load_config, hid]
  · intro key d
    rw [hid]

/-- The document of a store constructed at an absent path after
`set("kick.username", "me")`, used to witness the round-trip theorem. -/
def docW : List (String × JValue) :=
  [("kick", .obj [("username", .str "me"), ("check_interval", .int 30),
     ("enable_notifications", .bool true)]),
   ("discord", .obj [("client_id", .str ""), ("enable_rich_presence", .bool true)]),
   ("gui", .obj [("theme", .str "dark"), ("start_minimized", .bool false),
     ("minimize_to_tray", .bool true)]),
   ("logging", .obj [("level", .str "INFO"), ("file", .null)])]

/-- C3 (witness): the amended round-trip applied to a store constructed at
an absent path with the single call `set("kick.username", "me")`. -/
theorem C3_roundtrip_witness :
    Config.load_config (DiskFile.json (JValue.obj (Config.save_config docW none))) =
      some ⟨docW, DiskFile.json (JValue.obj docW), false⟩ ∧
    Config.get (mergeDefaults default_config docW) "kick.username" JValue.null =
      Config.get docW "kick.username" JValue.null := by
  have h := C3_roundtrip DiskFile.absent
    ⟨default_config, DiskFile.json (JValue.obj default_config), false⟩
    [("kick.username", JValue.str "me")] docW (by decide) (by decide) (by decide)
  exact ⟨h.1, h.2 "kick.username" JValue.null⟩

/-- C4: a present-but-malformed file (JSONDecodeError) and a
present-but-unreadable file (OSError) both construct without raising: the
store adopts the in-memory default schema, so `get("kick.username")`
returns `""`; a diagnostic is printed; and the on-disk file is left exactly
as it was — this construction path performs no write. -/
theorem C4_load_failure_defaults :
    Config.load_config DiskFile.malformed =
      some ⟨default_config, DiskFile.malformed, true⟩ ∧
    Config.load_config DiskFile.unreadable =
      some ⟨default_config, DiskFile.unreadable, true⟩ ∧
    Config.get default_config "kick.username" JValue.null = JValue.str "" := by
  decide

/-- C5: constructing a store at a path with no file adopts the default
schema and immediately writes it to disk as JSON; every field of the schema
table is then retrievable via `get` with its exact documented default (a
distinct sentinel default shows each field is really present), and the
written file parses as a JSON object that loads back to those same
values. -/
theorem C5_absent_creates_defaults :
    Config.load_config DiskFile.absent =
      some ⟨default_config, DiskFile.json (JValue.obj default_config), false⟩ ∧
    Config.load_config (DiskFile.json (JValue.obj default_config)) =
      some ⟨default_config, DiskFile.json (JValue.obj default_config), false⟩ ∧
    Config.get default_config "kick.username" (JValue.int 999) = JValue.str "" ∧
    Config.get default_config "kick.check_interval" (JValue.int 999) = JValue.int 30 ∧
    Config.get default_config "kick.enable_notifications" (JValue.int 999) =
      JValue.bool true ∧
    Config.get default_config "discord.client_id" (JValue.int 999) = JValue.str "" ∧
    Config.get default_config "discord.enable_rich_presence" (JValue.int 999) =
      JValue.bool true ∧
    Config.get default_config "gui.theme" (JValue.int 999) = JValue.str "dark" ∧
    Config.get default_config "gui.start_minimized" (JValue.int 999) =
      JValue.bool false ∧
    Config.get default_config "gui.minimize_to_tray" (JValue.int 999) =
      JValue.bool true ∧
    Config.get default_config "logging.level" (JValue.int 999) = JValue.str "INFO" ∧
    Config.get default_config "logging.file" (JValue.int 999) = JValue.null := by
  decide

/-- C6 (code bug): `save_config` computes `config_data or self.config_data`,
so a provided-but-falsy document — the empty dict — is silently replaced by
the current in-memory document, contradicting the claim (and the method's
own docstring, which promises the fallback only for `None`): saving the
explicitly provided empty document writes the in-memory document instead.
A provided truthy document and an omitted argument behave as claimed. -/
theorem C6_save_empty_dict_bug :
    Config.save_config default_config (some []) = default_config ∧
    default_config ≠ ([] : List (String × JValue)) ∧
    Config.save_config default_config (some [("a", JValue.int 1)]) =
      [("a", JValue.int 1)] ∧
    Config.save_config default_config none = default_config := by
  decide

/-- C7: `get` equals pure path lookup with a default — it returns the value
at the full dotted path when every segment exists in a mapping, and the
given default as soon as a segment is missing or met on a non-mapping node
(total, hence never raises); concretely, `get("missing.key", "fallback")`
returns `"fallback"` and `get("missing.key")` with the absent/null default
returns null. -/
theorem C7_get_short_circuit :
    (∀ (doc : List (String × JValue)) (key : String) (d : JValue),
      Config.get doc key d = (lookupPath (JValue.obj doc) (splitKey key)).getD d) ∧
    Config.get default_config "missing.key" (JValue.str "fallback") =
      JValue.str "fallback" ∧
    Config.get default_config "missing.key" JValue.null = JValue.null := by
  refine ⟨?_, by decide, by decide⟩
  intro doc key d
  exact getPath_eq_lookupPath (splitKey key) (JValue.obj doc) d

/-- C8: `setup_logging` first removes every previously installed handler and
then installs exactly one console sink, plus one file sink when a log-file
path is given and opening it succeeds; hence the result is independent of
the prior sink configuration and repeated calls with the same arguments
leave exactly the configuration of a single call. -/
theorem C8_setup_logging_idempotent (logFile : Option String) (fileOk : Bool)
    (prev prev2 : List Sink) (f : String) :
    setup_logging logFile fileOk (setup_logging logFile fileOk prev) =
      setup_logging logFile fileOk prev ∧
    setup_logging logFile fileOk prev = setup_logging logFile fileOk prev2 ∧
    (setup_logging logFile fileOk prev).count Sink.console = 1 ∧
    setup_logging none fileOk prev = [Sink.console] ∧
    setup_logging (some f) true prev = [Sink.console, Sink.file f] := by
  cases logFile <;> cases fileOk <;>
    simp [setup_logging, List.drop_length, List.count_cons, List.count_nil]

/-- C9: `get` reads `self.config_data` and performs no assignment and no
file operation: the full observable state (path, in-memory document, disk)
after a `get` is the input state, and the returned value is the pure
read. -/
theorem C9_get_pure (s : ConfigState) (key : String) (d : JValue) :
    (Config.getS s key d).2 = s ∧
    (Config.getS s key d).1 = Config.get s.config_data key d :=
  ⟨rfl, rfl⟩

/-- C10: the constructor computes `config_path or _get_default_config_path()`,
and the empty string is Python-falsy, so passing `""` behaves exactly like
omitting the argument: the default path under the user's home directory is
used and the `.kick_presence` application subdirectory is created. -/
theorem C10_empty_path_default (home : String) :
    resolveConfigPath home (some "") = resolveConfigPath home none ∧
    resolveConfigPath home none = (home ++ "/.kick_presence/config.json", true) := by
  constructor
  · simp [resolveConfigPath]
  · rfl

end KickPresence
